import Mathlib

/-!
Verification of the resource lifecycle and cleanup coordination engine of
`tempest/lis/manager.py` (LIS tempest scenario-test base classes).

The embedding models:
  * the per-test cleanup registry: `addCleanup` appends to an ordered list
    drained in reverse (LIFO) at teardown, exactly the semantics of the
    standard test-framework cleanup stack the code relies on;
  * `ScenarioTest.setUp`, which resets `cleanup_waits` and registers
    `_wait_for_cleanups` as the very first cleanup (hence the last to run);
  * `addCleanup_with_wait`, `_wait_for_cleanups`, `delete_wrapper`;
  * the registration effects and validation/control flow of the resource
    factories (`create_keypair`, `create_server`, `create_volume`,
    `create_server_snapshot`, `_image_create`, `create_floating_ip`,
    `_create_network`, `_create_subnet`, `_create_loginable_secgroup_rule`);
  * the polling helpers (`ping_ip_address`, `_node_state_timeout`).

External client calls are modelled by explicit outcome environments:
a factory receives the response the remote client would have returned,
and a cleanup action receives the outcome of the deletion it performs.
-/

namespace LisManager

/-- Error kinds raised by remote operations and assertions, mirroring the
`tempest.lib.exceptions` classes the source catches or raises
(`NotFound`, `Conflict`, `TimeoutException`, assertion failures). -/
inductive ErrKind
  | notFound
  | conflict (msg : String)
  | timeout (msg : String)
  | assertionError (msg : String)
  | other (tag : String)
  deriving DecidableEq, Repr

/-- Outcome of invoking a remote operation: it either returns or raises. -/
inductive Outcome
  | ok
  | fails (e : ErrKind)
  deriving DecidableEq, Repr

/-- Identifiers for the named client operations and waiters that the
factories register as cleanup callables. -/
inductive OpId
  | wait_for_server_termination
  | delete_server
  | delete_keypair
  | delete_image
  | wait_for_resource_deletion
  | delete_volume
  | delete_snapshot
  | delete_floating_ip
  | network_delete
  | subnet_delete
  deriving DecidableEq, Repr

/-- `ScenarioTest.delete_wrapper(delete_thing, *args, **kwargs)`: invokes the
deletion and swallows `lib_exc.NotFound`; every other exception propagates. -/
def delete_wrapper (outcome : Outcome) : Except ErrKind Unit :=
  match outcome with
  | .ok => .ok ()
  | .fails .notFound => .ok ()
  | .fails e => .error e

/-- A cleanup callable registered by the test body (never the framework's
own `_wait_for_cleanups`, which only `setUp` registers):
a generic teardown action, a raw client delete registered directly,
a delete routed through `delete_wrapper`, or a blocking deletion waiter
registered as a plain cleanup. -/
inductive UserCleanup
  | plain (label : Nat)
  | rawDelete (op : OpId) (resId : String)
  | wrappedDelete (op : OpId) (resId : String)
  | waiterBlock (w : OpId) (resId : String)
  deriving DecidableEq, Repr

/-- An entry of the framework cleanup stack: either a user-registered
callable or the `_wait_for_cleanups` hook registered in `setUp`. -/
inductive CleanupCall
  | user (u : UserCleanup)
  | waitForCleanups
  deriving DecidableEq, Repr

/-- The `wait_dict` appended to `self.cleanup_waits` by
`addCleanup_with_wait`: the waiter callable, the name of its id keyword
(`thing_id_param`), the resource id, and the optional `client` override. -/
structure WaitDict where
  waiter : OpId
  thing_id_param : String
  thing_id : String
  client : Option Nat
  deriving DecidableEq, Repr

/-- Per-test registration state: the framework cleanup list (appended by
`addCleanup`, drained in reverse order) and `self.cleanup_waits`. -/
structure TestState where
  cleanups : List CleanupCall
  cleanup_waits : List WaitDict
  deriving DecidableEq, Repr

/-- `addCleanup`: append a cleanup callable; entries are invoked in reverse
order of registration at teardown. -/
def addCleanup (s : TestState) (c : CleanupCall) : TestState :=
  { s with cleanups := s.cleanups ++ [c] }

/-- `ScenarioTest.setUp`: fresh `cleanup_waits = []` and the registration of
`self._wait_for_cleanups` as the first cleanup of the test. -/
def ScenarioTest.setUp : TestState :=
  addCleanup { cleanups := [], cleanup_waits := [] } .waitForCleanups

/-- `ScenarioTest.addCleanup_with_wait`: registers the cleanup callable
through `addCleanup` and appends the wait dictionary to `cleanup_waits`. -/
def addCleanup_with_wait (s : TestState) (waiter_callable : OpId)
    (thing_id : String) (thing_id_param : String)
    (cleanup_callable : CleanupCall) (waiter_client : Option Nat) : TestState :=
  let s1 := addCleanup s cleanup_callable
  { s1 with cleanup_waits :=
      s1.cleanup_waits ++ [⟨waiter_callable, thing_id_param, thing_id, waiter_client⟩] }

/-- Observable teardown events: a cleanup callable firing, or a waiter being
invoked as `waiter_callable(**wait)` with its recorded keyword arguments. -/
inductive Event
  | cleanupFired (u : UserCleanup)
  | waitFired (waiter : OpId) (thing_id_param : String) (thing_id : String)
      (client : Option Nat)
  deriving DecidableEq, Repr

/-- `ScenarioTest._wait_for_cleanups`: iterate `cleanup_waits` in order and
invoke each waiter with its recorded keyword arguments. -/
def _wait_for_cleanups (waits : List WaitDict) : List Event :=
  waits.map (fun w => .waitFired w.waiter w.thing_id_param w.thing_id w.client)

/-- Firing one entry of the cleanup stack: a user callable fires itself; the
`_wait_for_cleanups` hook drains the wait queue. -/
def runCleanupEntry (waits : List WaitDict) : CleanupCall → List Event
  | .user u => [.cleanupFired u]
  | .waitForCleanups => _wait_for_cleanups waits

/-- Teardown drain: the framework invokes registered cleanups in reverse
order of registration. -/
def doCleanups (s : TestState) : List Event :=
  (s.cleanups.reverse.map (runCleanupEntry s.cleanup_waits)).flatten

/-- A registration step performed by the test body: `addCleanup` of a user
callable, or `addCleanup_with_wait`. -/
inductive Registration
  | cleanup (c : UserCleanup)
  | withWait (waiter : OpId) (thing_id : String) (thing_id_param : String)
      (cleanup : UserCleanup) (client : Option Nat)
  deriving DecidableEq, Repr

/-- Apply one registration step to the test state. -/
def register (s : TestState) : Registration → TestState
  | .cleanup c => addCleanup s (.user c)
  | .withWait w id p c cl => addCleanup_with_wait s w id p (.user c) cl

/-- Apply a sequence of registration steps in order. -/
def runRegs (s : TestState) : List Registration → TestState
  | [] => s
  | r :: rest => runRegs (register s r) rest

/-- The cleanup callables contributed by a registration sequence, in
registration order (both kinds contribute their cleanup part). -/
def regCleanups : List Registration → List UserCleanup
  | [] => []
  | .cleanup c :: rest => c :: regCleanups rest
  | .withWait _ _ _ c _ :: rest => c :: regCleanups rest

/-- The wait dictionaries contributed by a registration sequence, in
registration order. -/
def regWaits : List Registration → List WaitDict
  | [] => []
  | .cleanup _ :: rest => regWaits rest
  | .withWait w id p _ cl :: rest => ⟨w, p, id, cl⟩ :: regWaits rest

theorem runRegs_state (regs : List Registration) : ∀ s : TestState,
    runRegs s regs =
      ⟨s.cleanups ++ (regCleanups regs).map CleanupCall.user,
       s.cleanup_waits ++ regWaits regs⟩ := by
  induction regs with
  | nil => intro s; simp [runRegs, regCleanups, regWaits]
  | cons r rest ih =>
    intro s
    cases r with
    | cleanup c =>
      simp [runRegs, register, addCleanup, ih, regCleanups, regWaits]
    | withWait w id p c cl =>
      simp [runRegs, register, addCleanup_with_wait, addCleanup, ih,
        regCleanups, regWaits]

theorem runEntries_user (ws : List WaitDict) (L : List UserCleanup) :
    ((L.map CleanupCall.user).map (runCleanupEntry ws)).flatten
      = L.map Event.cleanupFired := by
  induction L with
  | nil => rfl
  | cons u rest ih =>
    simp only [List.map_cons, List.flatten_cons, ih, runCleanupEntry,
      List.singleton_append]

theorem map_user_reverse (L : List UserCleanup) :
    (L.map CleanupCall.user).reverse = L.reverse.map CleanupCall.user := by
  simp

/-- The complete teardown trace of a test that performed the registration
sequence `regs` after `setUp`: all cleanup callables fire in reverse order
of registration, then every wait dictionary fires in registration order. -/
theorem doCleanups_runRegs (regs : List Registration) :
    doCleanups (runRegs ScenarioTest.setUp regs)
      = ((regCleanups regs).reverse.map Event.cleanupFired)
        ++ _wait_for_cleanups (regWaits regs) := by
  rw [runRegs_state]
  show ((([CleanupCall.waitForCleanups]
      ++ (regCleanups regs).map CleanupCall.user).reverse.map
        (runCleanupEntry ([] ++ regWaits regs))).flatten) = _
  rw [List.nil_append, List.reverse_append, map_user_reverse]
  simp only [List.map_append, List.flatten_append, runEntries_user]
  simp [runCleanupEntry]

/-- The user cleanup callables fired by a teardown trace, in firing order. -/
def cleanupTrace (evts : List Event) : List UserCleanup :=
  evts.filterMap (fun e =>
    match e with
    | .cleanupFired u => some u
    | .waitFired _ _ _ _ => none)

theorem cleanupTrace_map_fired (L : List UserCleanup) :
    cleanupTrace (L.map Event.cleanupFired) = L := by
  induction L with
  | nil => rfl
  | cons u rest ih =>
    simp only [List.map_cons, cleanupTrace, List.filterMap_cons] at ih ⊢
    rw [ih]

theorem cleanupTrace_waits (ws : List WaitDict) :
    cleanupTrace (_wait_for_cleanups ws) = [] := by
  induction ws with
  | nil => rfl
  | cons w rest ih =>
    simp only [_wait_for_cleanups, List.map_cons, cleanupTrace,
      List.filterMap_cons] at ih ⊢
    exact ih

/-- C1: for every sequence of cleanup registrations made during a test (via
`addCleanup` or the cleanup part of `addCleanup_with_wait`), the teardown
drain invokes the cleanup callables in strict reverse order of
registration (LIFO). -/
theorem cleanup_drain_lifo (regs : List Registration) :
    cleanupTrace (doCleanups (runRegs ScenarioTest.setUp regs))
      = (regCleanups regs).reverse := by
  rw [doCleanups_runRegs]
  show cleanupTrace (_ ++ _) = _
  simp only [cleanupTrace, List.filterMap_append] at *
  rw [show ∀ l, List.filterMap _ l = cleanupTrace l from fun _ => rfl,
    show ∀ l, List.filterMap _ l = cleanupTrace l from fun _ => rfl,
    cleanupTrace_map_fired, cleanupTrace_waits, List.append_nil]

/-- C2: for every interleaving of plain registrations and
`addCleanup_with_wait` registrations, the teardown trace is exactly: all
cleanup callables (from both kinds, in LIFO order), followed by the wait
entries in FIFO registration order, each waiter invoked with its recorded
resource-id keyword argument and its recorded client override. -/
theorem cleanups_before_waits_fifo (regs : List Registration) :
    doCleanups (runRegs ScenarioTest.setUp regs)
      = ((regCleanups regs).reverse.map Event.cleanupFired)
        ++ (regWaits regs).map (fun w =>
            Event.waitFired w.waiter w.thing_id_param w.thing_id w.client) := by
  rw [doCleanups_runRegs]; rfl

/-- C3: `delete_wrapper` returns normally exactly when the operation
succeeds or fails with the NotFound error kind (so deleting an
already-deleted resource never raises); any other failure kind propagates
unchanged. -/
theorem delete_wrapper_spec :
    (∀ o : Outcome, delete_wrapper o = .ok () ↔
        o = .ok ∨ o = .fails .notFound) ∧
    (∀ e : ErrKind, e ≠ .notFound → delete_wrapper (.fails e) = .error e) := by
  constructor
  · intro o
    cases o with
    | ok => simp [delete_wrapper]
    | fails e => cases e <;> simp [delete_wrapper]
  · intro e he
    cases e with
    | notFound => exact absurd rfl he
    | _ => rfl

/-- Witness for C3 at a concrete non-NotFound failure. -/
theorem delete_wrapper_spec_witness :
    delete_wrapper (.fails (.conflict "in use")) = .error (.conflict "in use") :=
  delete_wrapper_spec.2 (.conflict "in use") (by decide)

/-- The `network` portion of a `create_network` response: the new id and
the echoed name. -/
structure NetworkResp where
  id : String
  name : String
  deriving DecidableEq, Repr

/-- `NetworkScenarioTest._create_network`: invoke `create_network`, build the
deletable wrapper, `assertEqual(network.name, name)` on the echoed name,
and only then `addCleanup(self.delete_wrapper, network.delete)`. The
response the remote client returned is passed in as `resp`. -/
def _create_network (requested_name : String) (resp : NetworkResp)
    (s : TestState) : TestState × Except ErrKind String :=
  if resp.name = requested_name then
    (addCleanup s (.user (.wrappedDelete .network_delete resp.id)), .ok resp.id)
  else
    (s, .error (.assertionError "network name mismatch"))

/-- The `volume` portion of a `create_volume` response: the new id and the
echoed name (`display_name` under API v1, `name` under v2). -/
structure VolumeResp where
  id : String
  echoed_name : String
  deriving DecidableEq, Repr

/-- `ScenarioTest.create_volume`: invoke `create_volume`, then immediately
`addCleanup(wait_for_resource_deletion, id)` and
`addCleanup(self.delete_wrapper, delete_volume, id)`, then assert the
echoed name matches and wait for the volume to reach `available`
(`status_ok` records whether that wait converged). -/
def create_volume (requested_name : String) (resp : VolumeResp)
    (status_ok : Bool) (s : TestState) : TestState × Except ErrKind String :=
  let s1 := addCleanup s (.user (.waiterBlock .wait_for_resource_deletion resp.id))
  let s2 := addCleanup s1 (.user (.wrappedDelete .delete_volume resp.id))
  if resp.echoed_name = requested_name then
    if status_ok then (s2, .ok resp.id)
    else (s2, .error (.timeout "volume status wait timed out"))
  else
    (s2, .error (.assertionError "volume name mismatch"))

/-- C4 counterexample: in `_create_network`, a successful create response
whose echoed name fails validation leaves the registry exactly as it was —
the network's deletion cleanup was never registered, contradicting the
claim that every factory registers the cleanup before any validation. -/
theorem create_network_validation_failure_unregistered :
    (_create_network "net-req" ⟨"net-id-1", "net-echoed"⟩ ScenarioTest.setUp).2
        = .error (.assertionError "network name mismatch")
      ∧ (_create_network "net-req" ⟨"net-id-1", "net-echoed"⟩
          ScenarioTest.setUp).1.cleanups = [CleanupCall.waitForCleanups] := by
  constructor <;> rfl

/-- C4 (amended): `create_volume` registers both of its cleanup entries
immediately after the creation response, before name validation and status
polling, so a post-creation validation failure still leaves the deletion
registered; `_create_network`, by contrast, validates the echoed name
first and registers the cleanup only when validation passes, so a name
mismatch there leaves no cleanup registered. -/
theorem factory_registration_vs_validation (req : String) (nresp : NetworkResp)
    (vresp : VolumeResp) (status_ok : Bool) (s : TestState) :
    ((create_volume req vresp status_ok s).1.cleanups
        = s.cleanups
          ++ [.user (.waiterBlock .wait_for_resource_deletion vresp.id),
              .user (.wrappedDelete .delete_volume vresp.id)])
    ∧ ((_create_network req nresp s).1.cleanups
        = s.cleanups
          ++ (if nresp.name = req
              then [.user (.wrappedDelete .network_delete nresp.id)]
              else [])) := by
  constructor
  · simp only [create_volume, addCleanup]
    split
    · split <;> simp
    · simp
  · simp only [_create_network]
    split <;> simp [addCleanup]

/-- Whether `pat` occurs at the start of `cs` (character-list version of a
starts-with test). -/
def beginsWith : List Char → List Char → Bool
  | _, [] => true
  | [], _ :: _ => false
  | c :: cs, p :: ps => c == p && beginsWith cs ps

/-- Whether `pat` occurs somewhere in `cs`. -/
def hasSub : List Char → List Char → Bool
  | [], pat => pat.isEmpty
  | c :: cs, pat => beginsWith (c :: cs) pat || hasSub cs pat

/-- Substring containment, the Python `pat in msg` test on strings,
executed on the character lists. -/
def strContains (msg pat : String) : Bool :=
  hasSub msg.toList pat.toList

/-- The error-message fragment `_create_subnet` retries on. -/
def overlap_msg : String := "overlaps with another subnet"

/-- Result of one `create_subnet` attempt on a candidate CIDR block: the
created subnet id, a `Conflict` with its message, or another exception. -/
inductive SubnetAttempt
  | created (subnet_id : String)
  | conflict (msg : String)
  | raises (e : ErrKind)
  deriving DecidableEq, Repr

/-- One candidate CIDR block carved from the tenant CIDR: its string form,
whether `cidr_in_use` reports an existing subnet with that CIDR, and what
`create_subnet` would do if attempted on it. -/
structure Candidate where
  cidr : String
  in_use : Bool
  attempt : SubnetAttempt
  deriving DecidableEq, Repr

/-- The `for subnet_cidr in tenant_cidr.subnet(num_bits)` loop of
`_create_subnet`: skip blocks already in use, attempt creation otherwise,
continue past a `Conflict` whose message mentions an overlapping subnet,
re-raise any other exception, and stop at the first success (returning the
result together with `str_cidr`); `none` means the pool was exhausted. -/
def subnet_alloc_loop : List Candidate → Except ErrKind (Option (String × String))
  | [] => .ok none
  | c :: rest =>
    if c.in_use then subnet_alloc_loop rest
    else
      match c.attempt with
      | .created sid => .ok (some (sid, c.cidr))
      | .conflict msg =>
          if strContains msg overlap_msg then subnet_alloc_loop rest
          else .error (.conflict msg)
      | .raises e => .error e

/-- `NetworkScenarioTest._create_subnet`: run the allocation loop over the
finite candidate pool; `assertIsNotNone(result, 'Unable to allocate
tenant network')` on exhaustion, and on success register the subnet's
deletion through `delete_wrapper`. -/
def _create_subnet (candidates : List Candidate) (s : TestState) :
    TestState × Except ErrKind (String × String) :=
  match subnet_alloc_loop candidates with
  | .ok none => (s, .error (.assertionError "Unable to allocate tenant network"))
  | .ok (some (sid, cidr)) =>
      (addCleanup s (.user (.wrappedDelete .subnet_delete sid)), .ok (sid, cidr))
  | .error e => (s, .error e)

/-- Whether one attempt outcome is the overlap conflict the loop retries on. -/
def conflictOverlap : SubnetAttempt → Bool
  | .conflict msg => strContains msg overlap_msg
  | _ => false

/-- A candidate the loop passes over: already in use, or conflicting with
an overlapping-subnet message. -/
def skipped (c : Candidate) : Bool :=
  c.in_use || conflictOverlap c.attempt

theorem subnet_alloc_loop_skip (pre : List Candidate)
    (hpre : ∀ p ∈ pre, skipped p = true) (l : List Candidate) :
    subnet_alloc_loop (pre ++ l) = subnet_alloc_loop l := by
  induction pre with
  | nil => rfl
  | cons p rest ih =>
    have hp := hpre p (List.mem_cons_self p rest)
    have hrest : ∀ q ∈ rest, skipped q = true :=
      fun q hq => hpre q (List.mem_cons_of_mem p hq)
    simp only [List.cons_append, subnet_alloc_loop]
    by_cases hu : p.in_use = true
    · simp [hu, ih hrest]
    · simp only [skipped] at hp
      rw [Bool.not_eq_true] at hu
      rw [hu] at hp
      simp only [Bool.false_or] at hp
      cases ha : p.attempt with
      | created sid => rw [ha] at hp; simp [conflictOverlap] at hp
      | conflict msg =>
        rw [ha] at hp
        simp only [conflictOverlap] at hp
        simp [hu, ha, hp, ih hrest]
      | raises e => rw [ha] at hp; simp [conflictOverlap] at hp

theorem subnet_alloc_loop_append (cs extra : List Candidate)
    (h : subnet_alloc_loop cs ≠ .ok none) :
    subnet_alloc_loop (cs ++ extra) = subnet_alloc_loop cs := by
  induction cs with
  | nil => exact absurd rfl h
  | cons c rest ih =>
    simp only [List.cons_append, subnet_alloc_loop] at h ⊢
    by_cases hu : c.in_use = true
    · simp only [if_pos hu] at h ⊢
      exact ih h
    · simp only [if_neg hu] at h ⊢
      revert h
      cases c.attempt with
      | created sid => intro h; rfl
      | conflict msg =>
        intro h
        dsimp only at h ⊢
        by_cases hm : strContains msg overlap_msg = true
        · simp only [if_pos hm] at h ⊢
          exact ih h
        · simp only [if_neg hm]
      | raises e => intro h; rfl

/-- C5: subnet creation iterates the finite ordered candidate pool,
skipping blocks already in use and retrying exactly on overlap-message
conflicts: (i) when every candidate is skippable the factory fails with
the "Unable to allocate tenant network" assertion; (ii) the first
non-skipped candidate decides the outcome — success stops the loop with
that candidate's subnet and CIDR, while a conflict without the overlap
message propagates; (iii) the loop never looks beyond the pool: once it
resolves within `cs`, appending further candidates changes nothing. -/
theorem subnet_allocation_spec (cs : List Candidate) (s : TestState) :
    ((∀ c ∈ cs, skipped c = true) →
        (_create_subnet cs s).2
          = .error (.assertionError "Unable to allocate tenant network"))
    ∧ (∀ pre c rest, cs = pre ++ c :: rest →
        (∀ p ∈ pre, skipped p = true) → c.in_use = false →
        (∀ sid, c.attempt = .created sid →
            (_create_subnet cs s).2 = .ok (sid, c.cidr))
        ∧ (∀ msg, c.attempt = .conflict msg →
            strContains msg overlap_msg = false →
            (_create_subnet cs s).2 = .error (.conflict msg)))
    ∧ (∀ extra, subnet_alloc_loop cs ≠ .ok none →
        subnet_alloc_loop (cs ++ extra) = subnet_alloc_loop cs) := by
  refine ⟨?_, ?_, fun extra h => subnet_alloc_loop_append cs extra h⟩
  · intro hall
    have : subnet_alloc_loop cs = subnet_alloc_loop [] := by
      have := subnet_alloc_loop_skip cs hall []
      simpa using this
    simp [_create_subnet, this, subnet_alloc_loop]
  · intro pre c rest hcs hpre hu
    have hloop : subnet_alloc_loop cs = subnet_alloc_loop (c :: rest) := by
      rw [hcs]; exact subnet_alloc_loop_skip pre hpre (c :: rest)
    constructor
    · intro sid ha
      have : subnet_alloc_loop cs = .ok (some (sid, c.cidr)) := by
        rw [hloop]; simp [subnet_alloc_loop, hu, ha]
      simp [_create_subnet, this]
    · intro msg ha hm
      have : subnet_alloc_loop cs = .error (.conflict msg) := by
        rw [hloop]; simp [subnet_alloc_loop, hu, ha, hm]
      simp [_create_subnet, this]

/-- Witness for C5 on the spec's example: a pool whose first candidates are
in use or overlap-conflicted, with success on the next one. -/
theorem subnet_allocation_spec_witness :
    (_create_subnet
      [⟨"10.1.0.0/28", true, .created "s0"⟩,
       ⟨"10.1.0.16/28", false,
          .conflict "Invalid input: 10.1.0.16/28 overlaps with another subnet"⟩,
       ⟨"10.1.0.32/28", false, .created "s1"⟩]
      ScenarioTest.setUp).2 = .ok ("s1", "10.1.0.32/28") :=
  (((subnet_allocation_spec
      [⟨"10.1.0.0/28", true, .created "s0"⟩,
       ⟨"10.1.0.16/28", false,
          .conflict "Invalid input: 10.1.0.16/28 overlaps with another subnet"⟩,
       ⟨"10.1.0.32/28", false, .created "s1"⟩]
      ScenarioTest.setUp).2.1
      [⟨"10.1.0.0/28", true, .created "s0"⟩,
       ⟨"10.1.0.16/28", false,
          .conflict "Invalid input: 10.1.0.16/28 overlaps with another subnet"⟩]
      ⟨"10.1.0.32/28", false, .created "s1"⟩ []
      rfl (by decide) rfl).1) "s1" rfl

/-- One entry of the `rulesets` list iterated by
`_create_loginable_secgroup_rule`, with the `direction` field the loop
sets before each attempt. -/
structure Ruleset where
  protocol : String
  port_range_min : Option Int
  port_range_max : Option Int
  ethertype : Option String
  direction : String
  deriving DecidableEq, Repr

/-- Result of one `_create_security_group_rule` call: a created rule with
its echoed direction, a `Conflict` carrying `ex._error_string`, or another
exception. -/
inductive RuleAttempt
  | created (echoed_direction : String)
  | conflict (error_string : String)
  | raises (e : ErrKind)
  deriving DecidableEq, Repr

/-- The conflict message fragment `_create_loginable_secgroup_rule` treats
as success-without-duplicate. -/
def rule_exists_msg : String := "Security group rule already exists"

/-- The `for ruleset in rulesets: for r_direction in ['ingress', 'egress']`
loop of `_create_loginable_secgroup_rule`: on success assert the echoed
direction and append the rule; on a Conflict whose `_error_string`
contains the already-exists message, skip and continue; on any other
Conflict (or other exception) re-raise. -/
def secgroup_rule_loop (env : Ruleset → RuleAttempt) :
    List Ruleset → List Ruleset → Except ErrKind (List Ruleset)
  | [], rules => .ok rules
  | rs :: rest, rules =>
    match env rs with
    | .created echoed =>
        if echoed = rs.direction then secgroup_rule_loop env rest (rules ++ [rs])
        else .error (.assertionError "direction mismatch")
    | .conflict es =>
        if strContains es rule_exists_msg then secgroup_rule_loop env rest rules
        else .error (.conflict es)
    | .raises e => .error e

/-- The three rulesets of `_create_loginable_secgroup_rule` (ssh, ping,
ipv6-icmp), before the direction is set. -/
def loginable_rulesets : List Ruleset :=
  [⟨"tcp", some 22, some 22, none, ""⟩,
   ⟨"icmp", none, none, none, ""⟩,
   ⟨"icmp", none, none, some "IPv6", ""⟩]

/-- The expanded attempt sequence: each ruleset tried with direction
`ingress` then `egress`. -/
def expanded_rulesets : List Ruleset :=
  (loginable_rulesets.map (fun rs =>
    ["ingress", "egress"].map (fun d => { rs with direction := d }))).flatten

/-- `NetworkScenarioTest._create_loginable_secgroup_rule`: run the loop over
the six (ruleset, direction) attempts, collecting the created rules. -/
def _create_loginable_secgroup_rule (env : Ruleset → RuleAttempt) :
    Except ErrKind (List Ruleset) :=
  secgroup_rule_loop env expanded_rulesets []

/-- C6: during loginable security-group-rule creation, a Conflict whose
message contains "Security group rule already exists" is treated as
success-without-duplicate — the rule is skipped (not appended) and
iteration continues over the remaining rulesets — while a Conflict with
any other message propagates to the caller. -/
theorem secgroup_rule_conflict_spec (env : Ruleset → RuleAttempt)
    (rs : Ruleset) (rest acc : List Ruleset) :
    (∀ es, env rs = .conflict es → strContains es rule_exists_msg = true →
        secgroup_rule_loop env (rs :: rest) acc
          = secgroup_rule_loop env rest acc)
    ∧ (∀ es, env rs = .conflict es → strContains es rule_exists_msg = false →
        secgroup_rule_loop env (rs :: rest) acc = .error (.conflict es)) := by
  constructor
  · intro es he hm
    simp [secgroup_rule_loop, he, hm]
  · intro es he hm
    simp [secgroup_rule_loop, he, hm]

/-- Witness for C6: one already-exists conflict is skipped, leaving the
same result as not attempting the ruleset at all. -/
theorem secgroup_rule_conflict_spec_witness :
    secgroup_rule_loop
        (fun _ => .conflict "Security group rule already exists. Rule tcp 22")
        [⟨"tcp", some 22, some 22, none, "ingress"⟩] []
      = secgroup_rule_loop
          (fun _ => .conflict "Security group rule already exists. Rule tcp 22")
          [] [] :=
  (secgroup_rule_conflict_spec
      (fun _ => .conflict "Security group rule already exists. Rule tcp 22")
      ⟨"tcp", some 22, some 22, none, "ingress"⟩ [] []).1
    "Security group rule already exists. Rule tcp 22" rfl (by decide)

/-- Modelled from the spec: `tempest.test.call_until_true` is not under
`src/` (only its call sites are). Per the spec contract it repeatedly
invokes a no-argument boolean predicate, sleeping between attempts, until
the predicate returns true or the total timeout elapses, and returns a
boolean indicating which occurred. `pred i` is the value the predicate
returns on its `i`-th invocation and `attempts` the number of polls the
timeout and sleep interval allow. -/
def call_until_true_go (pred : Nat → Bool) (i : Nat) : Nat → Bool
  | 0 => false
  | fuel + 1 => if pred i then true else call_until_true_go pred (i + 1) fuel

/-- Modelled from the spec: entry point of the polling helper, starting at
the first invocation. -/
def call_until_true (pred : Nat → Bool) (attempts : Nat) : Bool :=
  call_until_true_go pred 0 attempts

theorem call_until_true_go_iff (pred : Nat → Bool) (fuel : Nat) : ∀ i : Nat,
    call_until_true_go pred i fuel = true
      ↔ ∃ j, j < fuel ∧ pred (i + j) = true := by
  induction fuel with
  | zero =>
    intro i
    simp [call_until_true_go]
  | succ n ih =>
    intro i
    rw [show call_until_true_go pred i (n + 1)
        = if pred i then true else call_until_true_go pred (i + 1) n from rfl]
    by_cases hp : pred i = true
    · rw [if_pos hp]
      exact iff_of_true rfl ⟨0, Nat.succ_pos n, by simpa using hp⟩
    · rw [if_neg hp, ih (i + 1)]
      constructor
      · rintro ⟨j, hj, hpj⟩
        refine ⟨j + 1, Nat.succ_lt_succ hj, ?_⟩
        have hadd : i + (j + 1) = i + 1 + j := by omega
        rw [hadd]; exact hpj
      · rintro ⟨j, hj, hpj⟩
        cases j with
        | zero =>
          rw [Nat.add_zero] at hpj
          exact absurd hpj hp
        | succ k =>
          refine ⟨k, Nat.lt_of_succ_lt_succ hj, ?_⟩
          have hadd : i + 1 + k = i + (k + 1) := by omega
          rw [hadd]; exact hpj

theorem call_until_true_iff (pred : Nat → Bool) (attempts : Nat) :
    call_until_true pred attempts = true
      ↔ ∃ i, i < attempts ∧ pred i = true := by
  simpa using call_until_true_go_iff pred attempts 0

/-- `ScenarioTest.ping_ip_address`: run `call_until_true` on the ping
predicate and return its boolean result; no exception path exists.
`ping_results i` is the value of `(proc.returncode == 0) == should_succeed`
on the `i`-th ping. -/
def ping_ip_address (ping_results : Nat → Bool) (timeout : Nat) :
    Except ErrKind Bool :=
  .ok (call_until_true ping_results timeout)

/-- `BaremetalScenarioTest._node_state_timeout`: poll whether the node's
state attribute is among `target_states`; on timeout raise
`TimeoutException` instead of returning false. `node_states i` is the
attribute value observed by the `i`-th poll. -/
def _node_state_timeout (node_states : Nat → String)
    (target_states : List String) (timeout : Nat) : Except ErrKind Unit :=
  if call_until_true (fun i => target_states.contains (node_states i)) timeout
  then .ok ()
  else .error (.timeout "Timed out waiting for node to reach state")

/-- `BaremetalScenarioTest.wait_provisioning_state`: converge on
`provision_state` via `_node_state_timeout`. -/
def wait_provisioning_state (node_states : Nat → String) (state : String)
    (timeout : Nat) : Except ErrKind Unit :=
  _node_state_timeout node_states [state] timeout

/-- `BaremetalScenarioTest.wait_power_state`: converge on `power_state` via
`_node_state_timeout` with the configured power timeout. -/
def wait_power_state (node_states : Nat → String) (state : String)
    (power_timeout : Nat) : Except ErrKind Unit :=
  _node_state_timeout node_states [state] power_timeout

/-- C7: the boolean polling helper as used by `ping_ip_address` never
raises — it returns a boolean that is true exactly when some poll within
the timeout succeeded — while the state-convergence variant
`_node_state_timeout` (used by `wait_power_state` and
`wait_provisioning_state`) raises the Timeout error kind exactly when no
poll within the timeout observed a target state. -/
theorem polling_spec (ping_results : Nat → Bool) (node_states : Nat → String)
    (target_states : List String) (t : Nat) :
    (∃ b, ping_ip_address ping_results t = .ok b
        ∧ (b = true ↔ ∃ i, i < t ∧ ping_results i = true))
    ∧ (_node_state_timeout node_states target_states t
          = .error (.timeout "Timed out waiting for node to reach state")
        ↔ ¬ ∃ i, i < t ∧ target_states.contains (node_states i) = true) := by
  refine ⟨⟨call_until_true ping_results t, rfl, call_until_true_iff _ _⟩, ?_⟩
  rw [← call_until_true_iff (fun i => target_states.contains (node_states i)) t]
  unfold _node_state_timeout
  by_cases hc :
      call_until_true (fun i => target_states.contains (node_states i)) t = true
  · simp [hc]
  · simp [hc]

/-- Executing one user-registered cleanup callable at teardown, given the
outcomes of the underlying remote operations: a raw client delete or a
blocking waiter propagates whatever its operation raises, while a delete
registered through `delete_wrapper` goes through the NotFound filter. -/
def runCleanupCall (env : OpId → String → Outcome) :
    UserCleanup → Except ErrKind Unit
  | .plain _ => .ok ()
  | .rawDelete op id =>
      match env op id with
      | .ok => .ok ()
      | .fails e => .error e
  | .wrappedDelete op id => delete_wrapper (env op id)
  | .waiterBlock w id =>
      match env w id with
      | .ok => .ok ()
      | .fails e => .error e

/-- `ScenarioTest.create_keypair`: create the keypair and register
`client.delete_keypair` directly (`addCleanup(client.delete_keypair,
name)` — not routed through `delete_wrapper`). -/
def create_keypair (name : String) (s : TestState) : TestState × String :=
  (addCleanup s (.user (.rawDelete .delete_keypair name)), name)

/-- `ScenarioTest._image_create`: create the image, register
`self.image_client.delete_image` directly (not through `delete_wrapper`),
then assert the image status is `queued` and upload the data. -/
def _image_create (image_id : String) (image_status : String) (s : TestState) :
    TestState × Except ErrKind String :=
  let s1 := addCleanup s (.user (.rawDelete .delete_image image_id))
  if image_status = "queued" then (s1, .ok image_id)
  else (s1, .error (.assertionError "image status not queued"))

/-- `ScenarioTest.create_floating_ip` (nova variant): create the floating
IP and register its deletion through `delete_wrapper`. -/
def create_floating_ip (fip_id : String) (s : TestState) : TestState × String :=
  (addCleanup s (.user (.wrappedDelete .delete_floating_ip fip_id)), fip_id)

/-- C8 counterexample: `create_keypair` registers the raw client delete,
not the Delete-Wrapper, so the cleanup it registers propagates NotFound
when the keypair is already gone — refuting the claim that every factory's
registered deletion suppresses the NotFound error kind. -/
theorem create_keypair_cleanup_propagates_notfound :
    (create_keypair "kp-1" ScenarioTest.setUp).1.cleanups
        = [CleanupCall.waitForCleanups,
           .user (.rawDelete .delete_keypair "kp-1")]
      ∧ runCleanupCall (fun _ _ => .fails .notFound)
          (.rawDelete .delete_keypair "kp-1") = .error ErrKind.notFound := by
  constructor <;> rfl

/-- C8 (amended): factories such as `create_floating_ip` (and
`create_volume`, `create_server`, the network factories) register deletion
through `delete_wrapper`, and a wrapped cleanup can never raise NotFound;
but `create_keypair` and `_image_create` register the client's delete
method directly, and those cleanups propagate NotFound when the resource
is already gone. -/
theorem factory_delete_wrapper_usage (s : TestState)
    (fip_id img_id kp_name img_status : String)
    (env : OpId → String → Outcome) :
    ((create_floating_ip fip_id s).1.cleanups
        = s.cleanups ++ [.user (.wrappedDelete .delete_floating_ip fip_id)])
    ∧ (∀ op id, runCleanupCall env (.wrappedDelete op id)
        ≠ .error ErrKind.notFound)
    ∧ ((create_keypair kp_name s).1.cleanups
        = s.cleanups ++ [.user (.rawDelete .delete_keypair kp_name)])
    ∧ ((_image_create img_id img_status s).1.cleanups
        = s.cleanups ++ [.user (.rawDelete .delete_image img_id)])
    ∧ (env .delete_keypair kp_name = .fails .notFound →
        runCleanupCall env (.rawDelete .delete_keypair kp_name)
          = .error ErrKind.notFound) := by
  refine ⟨rfl, ?_, rfl, ?_, ?_⟩
  · intro op id
    simp only [runCleanupCall]
    cases henv : env op id with
    | ok => simp [delete_wrapper]
    | fails e => cases e <;> simp [delete_wrapper]
  · simp only [_image_create]
    split <;> rfl
  · intro henv
    simp [runCleanupCall, henv]

/-- Witness for C8's amended statement: the raw keypair delete propagates
NotFound under an environment where the keypair is already gone. -/
theorem factory_delete_wrapper_usage_witness :
    runCleanupCall (fun _ _ => .fails .notFound)
        (.rawDelete .delete_keypair "kp-2") = .error ErrKind.notFound :=
  (factory_delete_wrapper_usage ScenarioTest.setUp "fip-1" "img-1" "kp-2"
      "queued" (fun _ _ => .fails .notFound)).2.2.2.2 rfl

theorem runRegs_append (a b : List Registration) : ∀ s : TestState,
    runRegs s (a ++ b) = runRegs (runRegs s a) b := by
  induction a with
  | nil => intro s; rfl
  | cons r rest ih =>
    intro s
    simp only [List.cons_append, runRegs]
    exact ih _

theorem regCleanups_append (a b : List Registration) :
    regCleanups (a ++ b) = regCleanups a ++ regCleanups b := by
  induction a with
  | nil => rfl
  | cons r rest ih => cases r <;> simp [regCleanups, ih]

theorem regWaits_append (a b : List Registration) :
    regWaits (a ++ b) = regWaits a ++ regWaits b := by
  induction a with
  | nil => rfl
  | cons r rest ih => cases r <;> simp [regWaits, ih]

/-- A sequence of ordinary `addCleanup` registrations of generic teardown
actions, used to surround a factory call with arbitrary other cleanups. -/
def plainRegs : List Nat → List Registration
  | [] => []
  | l :: rest => .cleanup (.plain l) :: plainRegs rest

theorem regCleanups_plain (ls : List Nat) :
    regCleanups (plainRegs ls) = ls.map UserCleanup.plain := by
  induction ls with
  | nil => rfl
  | cons l rest ih => simp [plainRegs, regCleanups, ih]

theorem regWaits_plain (ls : List Nat) : regWaits (plainRegs ls) = [] := by
  induction ls with
  | nil => rfl
  | cons l rest ih => simp [plainRegs, regWaits, ih]

/-- The registration effect of `ScenarioTest.create_server`: when
`wait_on_delete` is set, first `addCleanup(waiters.wait_for_server_termination,
clients.servers_client, body['id'])`; then, unconditionally,
`addCleanup_with_wait` with the same termination waiter, the server id
under key `server_id`, the wrapped `delete_server` cleanup, and the
servers client as waiter client. -/
def create_server (wait_on_delete : Bool) (server_id : String)
    (servers_client : Nat) (s : TestState) : TestState :=
  let s1 :=
    if wait_on_delete then
      addCleanup s (.user (.waiterBlock .wait_for_server_termination server_id))
    else s
  addCleanup_with_wait s1 .wait_for_server_termination server_id "server_id"
    (.user (.wrappedDelete .delete_server server_id)) (some servers_client)

theorem create_server_as_regs (sid : String) (cl : Nat) (s : TestState) :
    create_server true sid cl s
      = runRegs s
          [.cleanup (.waiterBlock .wait_for_server_termination sid),
           .withWait .wait_for_server_termination sid "server_id"
             (.wrappedDelete .delete_server sid) (some cl)] := rfl

/-- Teardown events that invoke the waiter callable `w`, whether as a
plain blocking cleanup or as a drained wait entry. -/
def invokesWaiter (w : OpId) : Event → Bool
  | .cleanupFired (.waiterBlock v _) => decide (v = w)
  | .waitFired v _ _ _ => decide (v = w)
  | _ => false

theorem countP_plain_events (w : OpId) (ls : List Nat) :
    ls.countP (invokesWaiter w ∘ fun l => Event.cleanupFired (.plain l)) = 0 := by
  induction ls with
  | nil => rfl
  | cons l rest ih =>
    rw [List.countP_cons]
    rw [show (invokesWaiter w ∘ fun l => Event.cleanupFired (.plain l)) l
        = false from rfl]
    simpa using ih

/-- C9: with `wait_on_delete = True` (the default), `create_server`
registers the server-termination waiter twice — once as a plain cleanup
entry, which fires during the LIFO phase immediately after the wrapped
`delete_server` entry, and once as a FIFO wait entry carrying the
`server_id` keyword and the servers client — so the waiter is invoked
twice at teardown (here amid arbitrary surrounding plain cleanups). -/
theorem create_server_waiter_registered_twice (pre post : List Nat)
    (sid : String) (cl : Nat) :
    doCleanups (runRegs (create_server true sid cl
        (runRegs ScenarioTest.setUp (plainRegs pre))) (plainRegs post))
      = (post.reverse.map (fun l => Event.cleanupFired (.plain l)))
        ++ [Event.cleanupFired (.wrappedDelete .delete_server sid),
            Event.cleanupFired (.waiterBlock .wait_for_server_termination sid)]
        ++ (pre.reverse.map (fun l => Event.cleanupFired (.plain l)))
        ++ [Event.waitFired .wait_for_server_termination "server_id" sid
              (some cl)]
    ∧ (doCleanups (runRegs (create_server true sid cl
        (runRegs ScenarioTest.setUp (plainRegs pre))) (plainRegs post))).countP
          (invokesWaiter .wait_for_server_termination) = 2 := by
  have hstate : runRegs (create_server true sid cl
      (runRegs ScenarioTest.setUp (plainRegs pre))) (plainRegs post)
    = runRegs ScenarioTest.setUp
        ((plainRegs pre
          ++ [.cleanup (.waiterBlock .wait_for_server_termination sid),
              .withWait .wait_for_server_termination sid "server_id"
                (.wrappedDelete .delete_server sid) (some cl)])
          ++ plainRegs post) := by
    rw [create_server_as_regs, runRegs_append, runRegs_append]
  have htrace : doCleanups (runRegs (create_server true sid cl
      (runRegs ScenarioTest.setUp (plainRegs pre))) (plainRegs post))
    = (post.reverse.map (fun l => Event.cleanupFired (.plain l)))
      ++ [Event.cleanupFired (.wrappedDelete .delete_server sid),
          Event.cleanupFired (.waiterBlock .wait_for_server_termination sid)]
      ++ (pre.reverse.map (fun l => Event.cleanupFired (.plain l)))
      ++ [Event.waitFired .wait_for_server_termination "server_id" sid
            (some cl)] := by
    rw [hstate, doCleanups_runRegs]
    simp [regCleanups_append, regWaits_append, regCleanups_plain,
      regWaits_plain, regCleanups, regWaits, _wait_for_cleanups,
      List.map_reverse, Function.comp_def]
  refine ⟨htrace, ?_⟩
  rw [htrace]
  simp [List.countP_append, List.countP_cons, List.countP_map,
    List.countP_reverse, countP_plain_events, invokesWaiter]

/-- The registration effect of `ScenarioTest.create_server_snapshot`:
`addCleanup_with_wait` for the snapshot image (waiter
`wait_for_resource_deletion` under key `id`, wrapped `delete_image`
cleanup, no waiter client), then — when the image's block device mapping
names a snapshot — `addCleanup(snapshots_client.wait_for_resource_deletion,
snapshot_id)` followed by `addCleanup(self.delete_wrapper,
delete_snapshot, snapshot_id)`. -/
def create_server_snapshot (image_id : String) (snapshot_id : Option String)
    (s : TestState) : TestState :=
  let s1 := addCleanup_with_wait s .wait_for_resource_deletion image_id "id"
      (.user (.wrappedDelete .delete_image image_id)) none
  match snapshot_id with
  | none => s1
  | some sid =>
      let s2 := addCleanup s1
          (.user (.waiterBlock .wait_for_resource_deletion sid))
      addCleanup s2 (.user (.wrappedDelete .delete_snapshot sid))

theorem create_server_snapshot_as_regs (image_id sid : String)
    (s : TestState) :
    create_server_snapshot image_id (some sid) s
      = runRegs s
          [.withWait .wait_for_resource_deletion image_id "id"
              (.wrappedDelete .delete_image image_id) none,
           .cleanup (.waiterBlock .wait_for_resource_deletion sid),
           .cleanup (.wrappedDelete .delete_snapshot sid)] := rfl

theorem create_volume_state (req : String) (vresp : VolumeResp) (ok : Bool)
    (s : TestState) :
    (create_volume req vresp ok s).1
      = runRegs s
          [.cleanup (.waiterBlock .wait_for_resource_deletion vresp.id),
           .cleanup (.wrappedDelete .delete_volume vresp.id)] := by
  simp only [create_volume]
  split
  · split <;> rfl
  · rfl

/-- C10: `create_volume` (and the snapshot branch of
`create_server_snapshot`) registers its wait-for-deletion as a plain
cleanup entry immediately before the delete entry, not as a wait-queue
entry: at teardown the delete event is immediately followed by the
blocking wait inside the LIFO phase, before earlier-registered cleanups
run, and the FIFO wait queue holds no entry for the volume or snapshot
(for `create_volume` it stays empty; for `create_server_snapshot` it holds
only the snapshot image's entry). -/
theorem volume_snapshot_waits_in_lifo_phase (pre post : List Nat)
    (req : String) (vresp : VolumeResp) (status_ok : Bool)
    (image_id snapshot_id : String) :
    (doCleanups (runRegs (create_volume req vresp status_ok
          (runRegs ScenarioTest.setUp (plainRegs pre))).1 (plainRegs post))
        = (post.reverse.map (fun l => Event.cleanupFired (.plain l)))
          ++ [Event.cleanupFired (.wrappedDelete .delete_volume vresp.id),
              Event.cleanupFired
                (.waiterBlock .wait_for_resource_deletion vresp.id)]
          ++ (pre.reverse.map (fun l => Event.cleanupFired (.plain l))))
    ∧ ((runRegs (create_volume req vresp status_ok
          (runRegs ScenarioTest.setUp (plainRegs pre))).1
            (plainRegs post)).cleanup_waits = [])
    ∧ (doCleanups (runRegs (create_server_snapshot image_id (some snapshot_id)
          (runRegs ScenarioTest.setUp (plainRegs pre))) (plainRegs post))
        = (post.reverse.map (fun l => Event.cleanupFired (.plain l)))
          ++ [Event.cleanupFired (.wrappedDelete .delete_snapshot snapshot_id),
              Event.cleanupFired
                (.waiterBlock .wait_for_resource_deletion snapshot_id),
              Event.cleanupFired (.wrappedDelete .delete_image image_id)]
          ++ (pre.reverse.map (fun l => Event.cleanupFired (.plain l)))
          ++ [Event.waitFired .wait_for_resource_deletion "id" image_id none])
    ∧ ((runRegs (create_server_snapshot image_id (some snapshot_id)
          (runRegs ScenarioTest.setUp (plainRegs pre)))
            (plainRegs post)).cleanup_waits
        = [⟨.wait_for_resource_deletion, "id", image_id, none⟩]) := by
  have hv : runRegs (create_volume req vresp status_ok
      (runRegs ScenarioTest.setUp (plainRegs pre))).1 (plainRegs post)
    = runRegs ScenarioTest.setUp
        ((plainRegs pre
          ++ [.cleanup (.waiterBlock .wait_for_resource_deletion vresp.id),
              .cleanup (.wrappedDelete .delete_volume vresp.id)])
          ++ plainRegs post) := by
    rw [create_volume_state, runRegs_append, runRegs_append]
  have hs : runRegs (create_server_snapshot image_id (some snapshot_id)
      (runRegs ScenarioTest.setUp (plainRegs pre))) (plainRegs post)
    = runRegs ScenarioTest.setUp
        ((plainRegs pre
          ++ [.withWait .wait_for_resource_deletion image_id "id"
                (.wrappedDelete .delete_image image_id) none,
              .cleanup (.waiterBlock .wait_for_resource_deletion snapshot_id),
              .cleanup (.wrappedDelete .delete_snapshot snapshot_id)])
          ++ plainRegs post) := by
    rw [create_server_snapshot_as_regs, runRegs_append, runRegs_append]
  refine ⟨?_, ?_, ?_, ?_⟩
  · rw [hv, doCleanups_runRegs]
    simp [regCleanups_append, regWaits_append, regCleanups_plain,
      regWaits_plain, regCleanups, regWaits, _wait_for_cleanups,
      List.map_reverse, Function.comp_def]
  · rw [hv, runRegs_state]
    simp [regWaits_append, regWaits_plain, regWaits, ScenarioTest.setUp,
      addCleanup]
  · rw [hs, doCleanups_runRegs]
    simp [regCleanups_append, regWaits_append, regCleanups_plain,
      regWaits_plain, regCleanups, regWaits, _wait_for_cleanups,
      List.map_reverse, Function.comp_def]
  · rw [hs, runRegs_state]
    simp [regWaits_append, regWaits_plain, regWaits, ScenarioTest.setUp,
      addCleanup]

end LisManager
